import Mathlib

/-!
# Verification of the ephemeral-audio streaming service

A shallow embedding of the core of the ephemeral-audio repository:

* `degradation.py` — `calculate_dropout_rate`, `apply_dropout`;
* `wav_handler.py` — `get_wav_info`, `read_segment`;
* `streaming.py` — `get_segment_range` and the per-segment body of
  `AudioStreamingService.stream_audio`;
* `metadata.py` — `get_track_metadata`, `increment_segment_play_count`.

Python floats are embedded as rationals (`ℚ`), NumPy sample values as
integers (`ℤ`), and NumPy's random draws as an explicit oracle
`ℕ → ℚ` giving the draw for each frame index.  Fallible operations
return `Except`/`Option`; filesystem state is passed explicitly.
-/

/-- Python's `int(x)` on a float: truncation toward zero. -/
def pyTrunc (q : ℚ) : ℤ :=
  if 0 ≤ q then ⌊q⌋ else -⌊-q⌋

/-- Python's `list(range(a, b))` over integers. -/
def intRange (a b : ℤ) : List ℤ :=
  (List.range (b - a).toNat).map (fun k : ℕ => a + (k : ℤ))

/-! ## Degradation engine (`degradation.py`) -/

/-- A NumPy audio buffer as handled by `apply_dropout`: either a
one-dimensional array of samples (mono) or a two-dimensional,
frame-major array (`shape = (samples, channels)`). -/
inductive AudioBuffer where
  | mono : List ℤ → AudioBuffer
  | multi : List (List ℤ) → AudioBuffer
  deriving DecidableEq

/-- `np.zeros_like`: a buffer of the same shape, every entry zero. -/
def AudioBuffer.zerosLike : AudioBuffer → AudioBuffer
  | .mono l => .mono (l.map (fun _ => 0))
  | .multi fs => .multi (fs.map (fun fr => fr.map (fun _ => 0)))

/-- The shape of a buffer: sample count for mono, the per-frame channel
counts for two-dimensional buffers. -/
def AudioBuffer.shape : AudioBuffer → ℕ ⊕ List ℕ
  | .mono l => .inl l.length
  | .multi fs => .inr (fs.map List.length)

/-- Every sample of the buffer is zero. -/
def AudioBuffer.isAllZero : AudioBuffer → Bool
  | .mono l => l.all (· == 0)
  | .multi fs => fs.all (fun fr => fr.all (· == 0))

/-- `degradation.calculate_dropout_rate`: linear in the play count,
`degradation_rate` percent per play, capped at `1.0`. -/
def calculate_dropout_rate (play_count : ℕ) (degradation_rate : ℚ) : ℚ :=
  min ((play_count : ℚ) * degradation_rate / 100) 1

/-- The mono branch of `apply_dropout`: sample `i` is zeroed exactly when
the random draw for index `i` is below the dropout rate
(`mask = np.random.random(n) < dropout_rate; degraded[mask] = 0`).
`s` is the index of the first element of the remaining list. -/
def maskMono (rnd : ℕ → ℚ) (dropout_rate : ℚ) : ℕ → List ℤ → List ℤ
  | _, [] => []
  | s, x :: rest =>
      (if rnd s < dropout_rate then 0 else x) :: maskMono rnd dropout_rate (s + 1) rest

/-- The multi-channel branch of `apply_dropout`: one draw per frame
(`mask = np.random.random(num_samples) < dropout_rate`), the masked
frame zeroed on every channel (`degraded[mask, channel] = 0`). -/
def maskMulti (rnd : ℕ → ℚ) (dropout_rate : ℚ) : ℕ → List (List ℤ) → List (List ℤ)
  | _, [] => []
  | s, fr :: rest =>
      (if rnd s < dropout_rate then fr.map (fun _ => 0) else fr) ::
        maskMulti rnd dropout_rate (s + 1) rest

/-- `degradation.apply_dropout` with the random generator passed as an
explicit oracle `rnd`. -/
def apply_dropout (audio_samples : AudioBuffer) (play_count : ℕ)
    (degradation_rate : ℚ) (rnd : ℕ → ℚ) : AudioBuffer :=
  if play_count = 0 then audio_samples
  else
    let dropout_rate := calculate_dropout_rate play_count degradation_rate
    if 1 ≤ dropout_rate then audio_samples.zerosLike
    else
      match audio_samples with
      | .mono l => .mono (maskMono rnd dropout_rate 0 l)
      | .multi fs => .multi (maskMulti rnd dropout_rate 0 fs)

/-- C6: `dropoutProbability(playCount, rate) = min(playCount × rate / 100, 1.0)`;
for `rate ≥ 0` it is non-decreasing in the play count, it never exceeds
`1.0`, and it is `0` at play count `0`. -/
theorem calculate_dropout_rate_spec :
    (∀ (pc : ℕ) (r : ℚ), calculate_dropout_rate pc r = min ((pc : ℚ) * r / 100) 1) ∧
    (∀ (pc₁ pc₂ : ℕ) (r : ℚ), 0 ≤ r → pc₁ ≤ pc₂ →
      calculate_dropout_rate pc₁ r ≤ calculate_dropout_rate pc₂ r) ∧
    (∀ (pc : ℕ) (r : ℚ), calculate_dropout_rate pc r ≤ 1) ∧
    (∀ r : ℚ, calculate_dropout_rate 0 r = 0) := by
  refine ⟨fun pc r => rfl, ?_, fun pc r => min_le_right _ _, ?_⟩
  · intro pc₁ pc₂ r hr h
    unfold calculate_dropout_rate
    apply min_le_min _ le_rfl
    apply div_le_div_of_nonneg_right _ (by norm_num)
    exact mul_le_mul_of_nonneg_right (by exact_mod_cast h) hr
  · intro r
    simp [calculate_dropout_rate]

/-- Witness for C6 at concrete inputs. -/
theorem calculate_dropout_rate_spec_witness :
    calculate_dropout_rate 2 1 = min ((2 : ℚ) * 1 / 100) 1 ∧
    calculate_dropout_rate 1 1 ≤ calculate_dropout_rate 3 1 ∧
    calculate_dropout_rate 7 1 ≤ 1 ∧
    calculate_dropout_rate 0 5 = 0 :=
  ⟨calculate_dropout_rate_spec.1 2 1,
   calculate_dropout_rate_spec.2.1 1 3 1 (by norm_num) (by norm_num),
   calculate_dropout_rate_spec.2.2.1 7 1,
   calculate_dropout_rate_spec.2.2.2 5⟩

/-- C5: at play count `0`, `apply_dropout` returns its input unchanged,
for every buffer, rate and randomness. -/
theorem apply_dropout_zero_plays (buf : AudioBuffer) (r : ℚ) (rnd : ℕ → ℚ) :
    apply_dropout buf 0 r rnd = buf := by
  simp [apply_dropout]

lemma zerosLike_isAllZero (buf : AudioBuffer) : buf.zerosLike.isAllZero = true := by
  cases buf <;> simp [AudioBuffer.zerosLike, AudioBuffer.isAllZero, List.all_eq_true]

lemma zerosLike_shape (buf : AudioBuffer) : buf.zerosLike.shape = buf.shape := by
  cases buf <;> simp [AudioBuffer.zerosLike, AudioBuffer.shape, List.map_map, Function.comp]

/-- C4: for play count `≥ 100` and rate `≥ 1`, `apply_dropout` returns the
all-zero buffer of the input's shape, whatever the randomness. -/
theorem apply_dropout_complete (buf : AudioBuffer) (pc : ℕ) (r : ℚ) (rnd : ℕ → ℚ)
    (hpc : 100 ≤ pc) (hr : 1 ≤ r) :
    apply_dropout buf pc r rnd = buf.zerosLike ∧
    (apply_dropout buf pc r rnd).isAllZero = true ∧
    (apply_dropout buf pc r rnd).shape = buf.shape := by
  have hpc0 : pc ≠ 0 := by omega
  have h100 : (100 : ℚ) ≤ (pc : ℚ) := by exact_mod_cast hpc
  have hmul : (100 : ℚ) ≤ (pc : ℚ) * r := by
    calc (100 : ℚ) = 100 * 1 := by norm_num
    _ ≤ (pc : ℚ) * r :=
        mul_le_mul h100 hr (by norm_num) (le_trans (by norm_num) h100)
  have hrate : 1 ≤ calculate_dropout_rate pc r := by
    apply le_min _ le_rfl
    rw [le_div_iff₀ (by norm_num : (0 : ℚ) < 100)]
    linarith
  have heq : apply_dropout buf pc r rnd = buf.zerosLike := by
    simp [apply_dropout, hpc0, hrate]
  exact ⟨heq, heq ▸ zerosLike_isAllZero buf, heq ▸ zerosLike_shape buf⟩

/-- Witness for C4 at a concrete stereo buffer. -/
theorem apply_dropout_complete_witness :
    apply_dropout (.multi [[1, 2], [3, 4]]) 100 1 (fun _ => 0) =
      AudioBuffer.zerosLike (.multi [[1, 2], [3, 4]]) ∧
    (apply_dropout (.multi [[1, 2], [3, 4]]) 100 1 (fun _ => 0)).isAllZero = true ∧
    (apply_dropout (.multi [[1, 2], [3, 4]]) 100 1 (fun _ => 0)).shape =
      AudioBuffer.shape (.multi [[1, 2], [3, 4]]) :=
  apply_dropout_complete (.multi [[1, 2], [3, 4]]) 100 1 (fun _ => 0)
    (by norm_num) (by norm_num)

lemma maskMulti_getElem? (rnd : ℕ → ℚ) (dr : ℚ) :
    ∀ (fs : List (List ℤ)) (s i : ℕ),
      (maskMulti rnd dr s fs)[i]? =
        (fs[i]?).map (fun fr => if rnd (s + i) < dr then fr.map (fun _ => 0) else fr)
  | [], s, i => by simp [maskMulti]
  | fr :: rest, s, 0 => by simp [maskMulti]
  | fr :: rest, s, i + 1 => by
      have hs : s + 1 + i = s + (i + 1) := by omega
      have ih := maskMulti_getElem? rnd dr rest (s + 1) i
      rw [hs] at ih
      simpa [maskMulti] using ih

/-- C7: on a two-dimensional buffer, `apply_dropout` makes one Boolean
decision per frame index: there is a mask `m` over frame indices such
that every frame with `m i = true` is zeroed on every channel and every
other frame is returned untouched — the set of zeroed frame indices is
identical across channels. -/
theorem apply_dropout_phase_locked (fs : List (List ℤ)) (pc : ℕ) (r : ℚ) (rnd : ℕ → ℚ) :
    ∃ (m : ℕ → Bool) (out : List (List ℤ)),
      apply_dropout (.multi fs) pc r rnd = .multi out ∧
      ∀ i : ℕ, out[i]? = (fs[i]?).map (fun fr => if m i then fr.map (fun _ => 0) else fr) := by
  by_cases h0 : pc = 0
  · refine ⟨fun _ => false, fs, by simp [apply_dropout, h0], fun i => ?_⟩
    simp
  by_cases h1 : 1 ≤ calculate_dropout_rate pc r
  · refine ⟨fun _ => true, fs.map (fun fr => fr.map (fun _ => 0)), ?_, fun i => ?_⟩
    · simp [apply_dropout, h0, h1, AudioBuffer.zerosLike]
    · simp [List.getElem?_map]
  · refine ⟨fun i => decide (rnd i < calculate_dropout_rate pc r),
      maskMulti rnd (calculate_dropout_rate pc r) 0 fs, ?_, fun i => ?_⟩
    · simp [apply_dropout, h0, h1]
    · simpa using maskMulti_getElem? rnd (calculate_dropout_rate pc r) fs 0 i

/-! ## Streaming orchestrator, per-segment step (`streaming.py`) -/

/-- Observable steps of one iteration of the segment loop in
`AudioStreamingService.stream_audio`, tagged with the segment index. -/
inductive StreamEvent where
  | lockAcquired (idx : ℕ)
  | lockTimeout (idx : ℕ)
  | readSamples (idx : ℕ)
  | degrade (idx : ℕ)
  | incrementCount (idx : ℕ)
  | writeSamples (idx : ℕ)
  | emitChunk (idx : ℕ)
  | release (idx : ℕ)
  deriving DecidableEq

/-- Outcome of the environment for one segment iteration: whether the
segment lock is acquired within the timeout, whether `read_segment`
succeeds, whether `write_segment` succeeds, whether
`increment_segment_play_count` succeeds, and the random draws consumed
by `apply_dropout`. -/
structure SegmentEnv where
  lockOk : Bool
  readOk : Bool
  writeOk : Bool
  incOk : Bool
  randoms : ℕ → ℚ

/-- The persistent state touched by one segment iteration: the segment's
play count in the counters file and the segment's on-disk samples. -/
structure SegState where
  playCount : ℕ
  samples : AudioBuffer
  deriving DecidableEq

/-- Result of one segment iteration: updated persistent state, the byte
chunks emitted to the client, and the ordered event trace. -/
structure SegmentResult where
  state : SegState
  chunks : List AudioBuffer
  events : List StreamEvent
  deriving DecidableEq

/-- One iteration of the segment loop of
`AudioStreamingService.stream_audio` (streaming.py lines 112–184),
with the play count for the segment already read from the metadata.
On the acquired path the code reads the segment, degrades it with the
observed play count, then calls `increment_segment_play_count`, then
calls `write_segment` (best effort), then yields the degraded bytes,
and the context manager releases the lock.  On lock timeout the code
reads the segment and yields it unmodified, touching nothing. -/
def processSegment (rate : ℚ) (idx : ℕ) (st : SegState) (env : SegmentEnv) :
    SegmentResult :=
  if env.lockOk then
    if env.readOk then
      let degraded := apply_dropout st.samples st.playCount rate env.randoms
      { state := { playCount := if env.incOk then st.playCount + 1 else st.playCount,
                   samples := if env.writeOk then degraded else st.samples },
        chunks := [degraded],
        events := [.lockAcquired idx, .readSamples idx, .degrade idx,
                   .incrementCount idx, .writeSamples idx, .emitChunk idx,
                   .release idx] }
    else
      { state := st, chunks := [], events := [.lockAcquired idx, .release idx] }
  else
    if env.readOk then
      { state := st, chunks := [st.samples],
        events := [.lockTimeout idx, .readSamples idx, .emitChunk idx] }
    else
      { state := st, chunks := [], events := [.lockTimeout idx] }

/-- An environment where everything succeeds, used to exercise the
acquired path on concrete inputs. -/
def envAllOk : SegmentEnv :=
  { lockOk := true, readOk := true, writeOk := true, incOk := true,
    randoms := fun _ => 1 }

/-- C1 counterexample: on the fully successful acquired path the trace
places `incrementCount` (position 3) before `writeSamples` (position 4),
so it is false that the orchestrator writes the degraded samples back
before incrementing the play count. -/
theorem stream_write_before_increment_false :
    ¬ (∀ i j : ℕ,
        (processSegment 1 0 ⟨5, .mono [1, 2, 3]⟩ envAllOk).events[i]? =
          some (.writeSamples 0) →
        (processSegment 1 0 ⟨5, .mono [1, 2, 3]⟩ envAllOk).events[j]? =
          some (.incrementCount 0) →
        i < j) := by
  intro h
  have h43 := h 4 3 (by rfl) (by rfl)
  omega

/-- C1 amended: in every segment iteration whose trace contains a
`writeSamples` step, the trace contains `degrade`, then
`incrementCount`, then `writeSamples`, in that order. -/
theorem processSegment_degrade_increment_write_order
    (rate : ℚ) (idx : ℕ) (st : SegState) (env : SegmentEnv)
    (h : StreamEvent.writeSamples idx ∈ (processSegment rate idx st env).events) :
    ∃ i j k : ℕ, i < j ∧ j < k ∧
      (processSegment rate idx st env).events[i]? = some (.degrade idx) ∧
      (processSegment rate idx st env).events[j]? = some (.incrementCount idx) ∧
      (processSegment rate idx st env).events[k]? = some (.writeSamples idx) := by
  rcases hL : env.lockOk with _ | _
  · rcases hR : env.readOk with _ | _
    · exact absurd h (by simp [processSegment, hL, hR])
    · exact absurd h (by simp [processSegment, hL, hR])
  · rcases hR : env.readOk with _ | _
    · exact absurd h (by simp [processSegment, hL, hR])
    · refine ⟨2, 3, 4, by omega, by omega, ?_, ?_, ?_⟩ <;>
        simp [processSegment, hL, hR]

/-- Witness for the C1 amended theorem on the all-success path. -/
theorem processSegment_degrade_increment_write_order_witness :
    ∃ i j k : ℕ, i < j ∧ j < k ∧
      (processSegment 1 0 ⟨5, .mono [1, 2, 3]⟩ envAllOk).events[i]? =
        some (.degrade 0) ∧
      (processSegment 1 0 ⟨5, .mono [1, 2, 3]⟩ envAllOk).events[j]? =
        some (.incrementCount 0) ∧
      (processSegment 1 0 ⟨5, .mono [1, 2, 3]⟩ envAllOk).events[k]? =
        some (.writeSamples 0) :=
  processSegment_degrade_increment_write_order 1 0 ⟨5, .mono [1, 2, 3]⟩ envAllOk
    (by decide)

/-- C3: when lock acquisition times out, the iteration leaves the play
count and the on-disk samples unchanged, every chunk it emits is the
segment's current bytes unmodified, and when the read succeeds it emits
exactly those bytes. -/
theorem processSegment_timeout_readonly
    (rate : ℚ) (idx : ℕ) (st : SegState) (env : SegmentEnv)
    (h : env.lockOk = false) :
    (processSegment rate idx st env).state = st ∧
    (∀ c ∈ (processSegment rate idx st env).chunks, c = st.samples) ∧
    (env.readOk = true → (processSegment rate idx st env).chunks = [st.samples]) := by
  rcases hR : env.readOk with _ | _ <;> simp [processSegment, h, hR]

/-- Witness for C3 on a concrete timed-out environment. -/
theorem processSegment_timeout_readonly_witness :
    (processSegment 1 2 ⟨7, .mono [4, 5]⟩
        { lockOk := false, readOk := true, writeOk := true, incOk := true,
          randoms := fun _ => 0 }).state = ⟨7, .mono [4, 5]⟩ ∧
    (∀ c ∈ (processSegment 1 2 ⟨7, .mono [4, 5]⟩
        { lockOk := false, readOk := true, writeOk := true, incOk := true,
          randoms := fun _ => 0 }).chunks, c = AudioBuffer.mono [4, 5]) ∧
    (true = true → (processSegment 1 2 ⟨7, .mono [4, 5]⟩
        { lockOk := false, readOk := true, writeOk := true, incOk := true,
          randoms := fun _ => 0 }).chunks = [AudioBuffer.mono [4, 5]]) :=
  processSegment_timeout_readonly 1 2 ⟨7, .mono [4, 5]⟩
    { lockOk := false, readOk := true, writeOk := true, incOk := true,
      randoms := fun _ => 0 } rfl

/-! ## Counter store (`metadata.py`) -/

/-- The JSON record written by `MetadataManager.initialize_track_metadata`
and read back by `get_track_metadata`. -/
structure TrackMetadata where
  filename : String
  title : String
  duration : ℚ
  segment_duration : ℚ
  total_segments : ℕ
  segment_play_counts : List ℕ
  created_at : String
  total_streams : ℕ
  deriving DecidableEq

/-- The state of a track's metadata file on disk: missing, present but
unparseable as JSON, or present and valid. -/
inductive MetaFile where
  | absent
  | corrupt
  | valid (m : TrackMetadata)
  deriving DecidableEq

/-- `MetadataManager.get_track_metadata`: `None` when the file does not
exist, `None` when loading raises (the exception is caught), otherwise
the parsed record. -/
def get_track_metadata : MetaFile → Option TrackMetadata
  | .absent => none
  | .corrupt => none
  | .valid m => some m

/-- Increment position `i` of a list, leaving other entries alone. -/
def bumpAt : List ℕ → ℕ → List ℕ
  | [], _ => []
  | c :: cs, 0 => (c + 1) :: cs
  | c :: cs, n + 1 => c :: bumpAt cs n

/-- `MetadataManager.increment_segment_play_count` acting on the
metadata file state.  The returned Boolean records whether the file was
written back.  When the record is missing or unreadable the function
returns early without writing; otherwise the play count at
`segment_index` is incremented when `0 ≤ segment_index <
len(segment_play_counts)` and the (possibly unchanged) record is
written back. -/
def increment_segment_play_count (store : MetaFile) (segment_index : ℤ) :
    MetaFile × Bool :=
  match store with
  | .absent => (.absent, false)
  | .corrupt => (.corrupt, false)
  | .valid m =>
      let counts :=
        if 0 ≤ segment_index ∧ segment_index < (m.segment_play_counts.length : ℤ) then
          bumpAt m.segment_play_counts segment_index.toNat
        else m.segment_play_counts
      (.valid { m with segment_play_counts := counts }, true)

/-- C9: reading the metadata of a track whose counters file does not
exist yields `none`, a result distinct from every initialized record —
in particular distinct from a record whose play counts are all zero. -/
theorem get_track_metadata_not_found :
    get_track_metadata .absent = none ∧
    ∀ m : TrackMetadata, get_track_metadata (.valid m) ≠ get_track_metadata .absent := by
  exact ⟨rfl, fun m => by simp [get_track_metadata]⟩

/-- C10: incrementing a segment index outside
`[0, total_segments)` of a well-formed record returns without error and
leaves the whole record — every play count and the total-streams
counter — unchanged, and incrementing a track with no metadata file
writes nothing at all. -/
theorem increment_out_of_range_noop :
    (∀ (m : TrackMetadata) (i : ℤ),
        m.segment_play_counts.length = m.total_segments →
        (i < 0 ∨ (m.total_segments : ℤ) ≤ i) →
        increment_segment_play_count (.valid m) i = (.valid m, true)) ∧
    (∀ i : ℤ, increment_segment_play_count .absent i = (.absent, false)) := by
  constructor
  · intro m i hw hi
    have hcond : ¬ (0 ≤ i ∧ i < (m.segment_play_counts.length : ℤ)) := by
      rw [hw]; omega
    simp [increment_segment_play_count, hcond]
  · intro i
    rfl

/-- Witness for C10: out-of-range index `5` on a two-segment record, and
a missing metadata file. -/
theorem increment_out_of_range_noop_witness :
    increment_segment_play_count
        (.valid { filename := "t.wav", title := "t", duration := 1,
                  segment_duration := 1/2, total_segments := 2,
                  segment_play_counts := [0, 3], created_at := "", total_streams := 1 })
        5 =
      (.valid { filename := "t.wav", title := "t", duration := 1,
                segment_duration := 1/2, total_segments := 2,
                segment_play_counts := [0, 3], created_at := "", total_streams := 1 },
       true) ∧
    increment_segment_play_count .absent 5 = (.absent, false) :=
  ⟨increment_out_of_range_noop.1
      { filename := "t.wav", title := "t", duration := 1,
        segment_duration := 1/2, total_segments := 2,
        segment_play_counts := [0, 3], created_at := "", total_streams := 1 }
      5 rfl (by decide),
   increment_out_of_range_noop.2 5⟩

/-! ## Segment store (`wav_handler.py`) -/

/-- A WAV container file as seen through Python's `wave` module:
whether the header chunks parse at all, whether the compression type is
`NONE` (uncompressed linear PCM — the only encoding `wave` accepts),
the header parameters, and the raw bytes of the data chunk. -/
structure WavFile where
  headerOk : Bool
  isPCM : Bool
  sample_rate : ℕ
  channels : ℕ
  sample_width : ℕ
  num_frames : ℕ
  dataBytes : List ℕ
  deriving DecidableEq

/-- The dictionary returned by `wav_handler.get_wav_info`. -/
structure WavInfo where
  sample_rate : ℕ
  channels : ℕ
  sample_width : ℕ
  num_frames : ℕ
  duration : ℚ
  deriving DecidableEq

/-- The exceptions `wav_handler` can surface: `wave.Error` on an
unparseable header or unsupported (non-PCM) encoding, division by a
zero frame rate, `wave.Error` from `setpos` on an out-of-range
position, and `ValueError` from `np.frombuffer`/`reshape`. -/
inductive WavError where
  | invalidContainer
  | zeroDivision
  | badPosition
  | decodeError
  deriving DecidableEq

/-- `wav_handler.get_wav_info`: `wave.open` fails unless the header
parses and the encoding is uncompressed PCM; then the parameters are
read off and the duration computed as `num_frames / sample_rate`. -/
def get_wav_info (f : WavFile) : Except WavError WavInfo :=
  if f.headerOk && f.isPCM then
    if f.sample_rate = 0 then .error .zeroDivision
    else
      .ok { sample_rate := f.sample_rate, channels := f.channels,
            sample_width := f.sample_width, num_frames := f.num_frames,
            duration := (f.num_frames : ℚ) / (f.sample_rate : ℚ) }
  else .error .invalidContainer

/-- Little-endian unsigned value of a byte list. -/
def leBytesToNat : List ℕ → ℕ
  | [] => 0
  | b :: rest => b + 256 * leBytesToNat rest

/-- Two's-complement reading of an unsigned `width`-byte value, as
`np.int16`/`np.int32` interpret the bytes. -/
def toSigned (width : ℕ) (u : ℕ) : ℤ :=
  if u < 2 ^ (8 * width - 1) then (u : ℤ) else (u : ℤ) - 2 ^ (8 * width)

/-- Split a list into consecutive groups of `k` elements; `fuel` bounds
the number of groups (instantiated with the list's length, which always
suffices since every group consumes at least one element). -/
def chunkListFuel {α : Type} (k : ℕ) : ℕ → List α → List (List α)
  | 0, _ => []
  | _, [] => []
  | fuel + 1, a :: t =>
      if k = 0 then []
      else (a :: t.take (k - 1)) :: chunkListFuel k fuel (t.drop (k - 1))

/-- Split a list into consecutive groups of `k` elements. -/
def chunkList {α : Type} (k : ℕ) (l : List α) : List (List α) :=
  chunkListFuel k l.length l

deriving instance DecidableEq for Except

/-- `np.frombuffer` with a `width`-byte little-endian signed integer
dtype (assuming the buffer length is a multiple of `width`). -/
def decodeSamples (width : ℕ) (bytes : List ℕ) : List ℤ :=
  (chunkList width bytes).map (fun g => toSigned width (leBytesToNat g))

/-- `wav_handler.read_segment`.  It computes
`samples_per_segment = int(sample_rate * segment_duration)`, seeks to
`start_frame = segment_index * samples_per_segment` (`wave.setpos`
raises on positions outside `[0, num_frames]`), reads at most
`samples_per_segment` frames, and decodes them with dtype `int16` when
`sample_width == 2`, `int32` when `sample_width == 4`, and — the
documented default — `int16` for every other width.  Multi-channel data
is reshaped into frame-major rows of `channels` samples. -/
def read_segment (f : WavFile) (segment_index : ℤ) (segment_duration : ℚ) :
    Except WavError (AudioBuffer × WavInfo) :=
  match get_wav_info f with
  | .error e => .error e
  | .ok wav_info =>
      let samples_per_segment := pyTrunc ((wav_info.sample_rate : ℚ) * segment_duration)
      let start_frame := segment_index * samples_per_segment
      if start_frame < 0 ∨ (wav_info.num_frames : ℤ) < start_frame then
        .error .badPosition
      else
        let bytesPerFrame := wav_info.sample_width * wav_info.channels
        let frames := (f.dataBytes.drop (start_frame.toNat * bytesPerFrame)).take
          (samples_per_segment.toNat * bytesPerFrame)
        let dtypeWidth := if wav_info.sample_width = 2 then 2
          else if wav_info.sample_width = 4 then 4 else 2
        if frames.length % dtypeWidth ≠ 0 then .error .decodeError
        else
          let audio_data := decodeSamples dtypeWidth frames
          if 1 < wav_info.channels then
            if audio_data.length % wav_info.channels ≠ 0 then .error .decodeError
            else .ok (.multi (chunkList wav_info.channels audio_data), wav_info)
          else .ok (.mono audio_data, wav_info)

/-- An 8-bit linear-PCM file whose header parses: one channel, sample
width 1 byte, 8 frames of one byte each. -/
def eightBitFile : WavFile :=
  { headerOk := true, isPCM := true, sample_rate := 8, channels := 1,
    sample_width := 1, num_frames := 8,
    dataBytes := [1, 2, 3, 4, 5, 6, 7, 8] }

/-- C2 counterexample: `eightBitFile` is PCM with a sample width that is
neither 16 nor 32 bits, yet reading segment 0 does not fail with
`InvalidContainer`: the bytes are decoded with the default `int16`
dtype and returned as sample data. -/
theorem read_segment_unsupported_width_returns_data :
    eightBitFile.sample_width ≠ 2 ∧ eightBitFile.sample_width ≠ 4 ∧
    read_segment eightBitFile 0 (1 / 2) =
      .ok (.mono [513, 1027],
        { sample_rate := 8, channels := 1, sample_width := 1, num_frames := 8,
          duration := 1 }) := by
  refine ⟨by decide, by decide, ?_⟩
  have hinfo : get_wav_info eightBitFile =
      .ok { sample_rate := 8, channels := 1, sample_width := 1, num_frames := 8,
            duration := 1 } := by
    simp only [get_wav_info, eightBitFile, Bool.and_self, if_true, if_neg
      (by decide : ¬(8 = 0)), Except.ok.injEq, WavInfo.mk.injEq, true_and,
      and_true]
    push_cast
    norm_num
  have hsps : pyTrunc (((8 : ℕ) : ℚ) * (1 / 2)) = 4 := by
    have h4 : ((8 : ℕ) : ℚ) * (1 / 2) = 4 := by push_cast; norm_num
    rw [h4]; simp [pyTrunc]
  unfold read_segment
  rw [hinfo]
  dsimp only
  rw [hsps]
  decide

/-- C2 amended: opening fails with `InvalidContainer` exactly when the
header cannot be parsed or the encoding is not PCM; on a parseable PCM
file `read_segment` never fails with `InvalidContainer`, whatever the
sample width — unsupported widths are decoded as 16-bit samples. -/
theorem invalid_container_spec :
    (∀ f : WavFile, get_wav_info f = .error .invalidContainer ↔
      (f.headerOk = false ∨ f.isPCM = false)) ∧
    (∀ (f : WavFile) (i : ℤ) (d : ℚ), f.headerOk = true → f.isPCM = true →
      read_segment f i d ≠ .error .invalidContainer) := by
  constructor
  · intro f
    rcases hH : f.headerOk with _ | _ <;> rcases hP : f.isPCM with _ | _ <;>
      by_cases hs : f.sample_rate = 0 <;> simp [get_wav_info, hH, hP, hs]
  · intro f i d hH hP
    by_cases hs : f.sample_rate = 0
    · have hinfo : get_wav_info f = .error .zeroDivision := by
        simp [get_wav_info, hH, hP, hs]
      unfold read_segment
      rw [hinfo]
      simp
    · have hinfo : get_wav_info f =
          .ok { sample_rate := f.sample_rate, channels := f.channels,
                sample_width := f.sample_width, num_frames := f.num_frames,
                duration := (f.num_frames : ℚ) / (f.sample_rate : ℚ) } := by
        simp [get_wav_info, hH, hP, hs]
      unfold read_segment
      rw [hinfo]
      dsimp only
      split_ifs <;> simp
/-- Witness for C2's amended theorem: the 8-bit PCM file is readable
without an `InvalidContainer` failure. -/
theorem invalid_container_spec_witness :
    read_segment eightBitFile 0 (1 / 2) ≠ .error .invalidContainer :=
  invalid_container_spec.2 eightBitFile 0 (1 / 2) rfl rfl

/-! ## Segment range (`streaming.py`, `get_segment_range`) -/

/-- `AudioStreamingService.get_segment_range`, with the service's
`segment_duration` as first argument: the start segment is
`int(start_seconds / segment_duration)` clamped into
`[0, total_segments - 1]`, and the returned indices run from there up
to `total_segments` exclusive.  The `duration` argument is accepted and
unused, as in the source. -/
def get_segment_range (segment_duration : ℚ) (start_seconds : ℚ) (duration : ℚ)
    (total_segments : ℤ) : List ℤ :=
  let start_segment := pyTrunc (start_seconds / segment_duration)
  let end_segment := total_segments
  let start_segment := max 0 (min start_segment (total_segments - 1))
  intRange start_segment end_segment

lemma clamp_pyTrunc_eq_clamp_floor (x : ℚ) (n : ℤ) :
    max 0 (min (pyTrunc x) (n - 1)) = max 0 (min ⌊x⌋ (n - 1)) := by
  unfold pyTrunc
  split_ifs with h
  · rfl
  · push_neg at h
    have hceil : -⌊-x⌋ ≤ 0 := by
      have h0 : (0 : ℤ) ≤ ⌊-x⌋ := by
        rw [Int.le_floor]
        push_cast
        linarith
      omega
    have hfloor : ⌊x⌋ ≤ 0 := by
      have hmono := Int.floor_le_floor (α := ℚ) h.le
      simpa using hmono
    rw [max_eq_left (le_trans (min_le_left _ _) hceil),
        max_eq_left (le_trans (min_le_left _ _) hfloor)]

lemma intRange_head? (a b : ℤ) (h : a < b) : (intRange a b).head? = some a := by
  unfold intRange
  have hn : (b - a).toNat = (b - a - 1).toNat + 1 := by omega
  rw [hn, List.range_succ_eq_map]
  simp

lemma intRange_getLast? (a b : ℤ) (h : a < b) :
    (intRange a b).getLast? = some (b - 1) := by
  unfold intRange
  have hn : (b - a).toNat = (b - a - 1).toNat + 1 := by omega
  rw [hn, List.range_succ, List.map_append]
  simp only [List.map_cons, List.map_nil, List.getLast?_concat, Option.some.injEq]
  omega

/-- C8: for a positive segment duration and `totalSegments ≥ 1`, the
segment range equals the consecutive run of indices from
`clamp(⌊t / segmentDuration⌋, 0, totalSegments − 1)` up to and
including `totalSegments − 1`. -/
theorem get_segment_range_spec (d t dur : ℚ) (n : ℤ)
    (hd : 0 < d) (hn : 1 ≤ n) :
    get_segment_range d t dur n = intRange (max 0 (min ⌊t / d⌋ (n - 1))) n ∧
    (get_segment_range d t dur n).head? = some (max 0 (min ⌊t / d⌋ (n - 1))) ∧
    (get_segment_range d t dur n).getLast? = some (n - 1) := by
  have heq : get_segment_range d t dur n =
      intRange (max 0 (min ⌊t / d⌋ (n - 1))) n := by
    unfold get_segment_range
    dsimp only
    rw [clamp_pyTrunc_eq_clamp_floor]
  have hle : max 0 (min ⌊t / d⌋ (n - 1)) ≤ n - 1 :=
    max_le (by omega) (min_le_right _ _)
  have hlt : max 0 (min ⌊t / d⌋ (n - 1)) < n := by omega
  exact ⟨heq, heq ▸ intRange_head? _ n hlt, heq ▸ intRange_getLast? _ n hlt⟩

/-- Witness for C8: a 2-second track at 0.5-second segments
(4 segments), streamed from offset 1 s — segments 2 and 3. -/
theorem get_segment_range_spec_witness :
    get_segment_range (1/2) 1 2 4 = intRange (max 0 (min ⌊(1 : ℚ) / (1/2)⌋ 3)) 4 ∧
    (get_segment_range (1/2) 1 2 4).head? = some (max 0 (min ⌊(1 : ℚ) / (1/2)⌋ 3)) ∧
    (get_segment_range (1/2) 1 2 4).getLast? = some 3 :=
  get_segment_range_spec (1/2) 1 2 4 (by norm_num) (by norm_num)
